import Mathlib

/-!
# ROSA command handlers: `delete machinepool` and `list users`

A shallow embedding of the two command handlers

* `cmd/dlt/machinepool/cmd.go` (`machinePoolKeyRE`, `run`)
* `cmd/list/user/cmd.go` (`run`)

Each handler is a straight-line sequence of reporter calls, remote calls and
early exits.  A handler is embedded as a pure function from the runtime (the
answers of the remote service and of the operator) to the list of events it
produces together with the way the process ends.
-/

namespace Rosa

/-! ## Shared runtime model -/

/-- Modelled from the spec: the SDK type `cmv1.Cluster` is not part of the sources; the
handlers read only `ID()` and `State()`. -/
structure Cluster where
  id : String
  state : String
deriving DecidableEq, Repr

/-- Modelled from the spec: the SDK constant `cmv1.ClusterStateReady` is not part of the
sources; a cluster that is not in this state is "not yet ready". -/
def ClusterStateReady : String := "ready"

/-- Modelled from the spec: the SDK type `cmv1.MachinePool` is not part of the sources; the
handler reads only `ID()`.  The further fields stand for the rest of the
object, so that two items carrying the same id can be told apart. -/
structure MachinePool where
  id : String
  instanceType : String
  replicas : Nat
deriving DecidableEq, Repr

/-- Modelled from the spec: the SDK type `cmv1.User` is not part of the sources; the handler
reads only `ID()`. -/
structure User where
  id : String
  href : String
deriving DecidableEq, Repr

/-- Everything a handler does that is visible from outside, in program order. -/
inductive Event where
  | errorf (msg : String)
  | warnf (msg : String)
  | infof (msg : String)
  | debugf (msg : String)
  | getCluster (clusterKey : String)
  | getMachinePools (clusterID : String)
  | deleteMachinePool (clusterID : String) (machinePoolID : String)
  | getUsers (clusterID : String) (group : String)
  | confirm (prompt : String)
  | fprintf (text : String)
  | flush
deriving DecidableEq, Repr

/-- How a handler ends: it returns to the caller, calls `os.Exit`, or panics. -/
inductive Outcome where
  | returned
  | exited (code : Nat)
  | panicked
deriving DecidableEq, Repr

/-- Process exit status: a handler that returns lets the command finish with
status 0; an unrecovered Go panic ends the process with status 2. -/
def Outcome.exitStatus : Outcome → Nat
  | .returned => 0
  | .exited code => code
  | .panicked => 2

structure Result where
  trace : List Event
  outcome : Outcome
deriving DecidableEq, Repr

/-- Run `rest` after the events `evs` have happened. -/
def emit (evs : List Event) (rest : Result) : Result :=
  { trace := evs ++ rest.trace, outcome := rest.outcome }

/-- The runtime of one invocation: the resolved cluster key and the answers of
the collaborators that are not part of the sources (the OCM client and the
confirmation prompt).  An `Except.error` carries the text of the Go error. -/
structure Runtime where
  clusterKey : String
  getCluster : String → Except String Cluster
  getMachinePools : String → Except String (List MachinePool)
  deleteMachinePool : String → String → Option String
  getUsers : String → String → Except String (List User)
  confirm : String → Bool

/-! ## The identifier pattern -/

/-- The characters from `lo` to `hi`, as in a class range `lo-hi`. -/
def charRange (lo hi : Char) : List Char :=
  (List.range (hi.toNat + 1 - lo.toNat)).map (fun k => Char.ofNat (lo.toNat + k))

/-- A character class: the alternation of its members. -/
def charClass : List Char → RegularExpression Char
  | [] => RegularExpression.zero
  | c :: cs => RegularExpression.plus (RegularExpression.char c) (charClass cs)

/-- The postfix `?` of the pattern syntax. -/
def optional (re : RegularExpression Char) : RegularExpression Char :=
  RegularExpression.plus RegularExpression.epsilon re

/-- Whole-text match of a pattern written between `^` and `$`. -/
def MatchString (re : RegularExpression Char) (s : String) : Bool :=
  re.rmatch s.toList

end Rosa

namespace Rosa.Machinepool

/-- The pattern `^[a-z]([-a-z0-9]*[a-z0-9])?$`. -/
def machinePoolKeyRE : RegularExpression Char :=
  RegularExpression.comp (charClass (charRange 'a' 'z'))
    (optional
      (RegularExpression.comp
        (RegularExpression.star
          (charClass ('-' :: (charRange 'a' 'z' ++ charRange '0' '9'))))
        (charClass (charRange 'a' 'z' ++ charRange '0' '9'))))

def msgInvalidIdentifier : String :=
  "Expected a valid identifier for the machine pool"

def msgCannotDelete (machinePoolID clusterKey : String) : String :=
  "Machine pool '" ++ machinePoolID ++ "' cannot be deleted from cluster '" ++ clusterKey ++ "'"

def msgSuccess (machinePoolID clusterKey : String) : String :=
  "Successfully deleted machine pool '" ++ machinePoolID ++ "' from cluster '" ++ clusterKey ++ "'"

/-- The prompt handed to `confirm.Confirm`. -/
def confirmPrompt (machinePoolID clusterKey : String) : String :=
  "delete machine pool '" ++ machinePoolID ++ "' on cluster '" ++ clusterKey ++ "'"

/-- The scan of `run` over the fetched machine pools: `machinePool` starts as
nil and is assigned at every item whose id equals the requested one. -/
def findMachinePool (machinePools : List MachinePool) (machinePoolID : String) :
    Option MachinePool :=
  machinePools.foldl
    (fun machinePool item => if item.id = machinePoolID then some item else machinePool)
    none

/-- The confirmation gate and the delete call of `run`. -/
def deleteStep (r : Runtime) (clusterKey : String) (cluster : Cluster)
    (machinePoolID : String) (machinePool : MachinePool) : Result :=
  emit [Event.confirm (confirmPrompt machinePoolID clusterKey)] <|
  if r.confirm (confirmPrompt machinePoolID clusterKey) then
    emit [Event.debugf
        ("Deleting machine pool '" ++ machinePool.id ++ "' on cluster '" ++ clusterKey ++ "'"),
      Event.deleteMachinePool cluster.id machinePool.id] <|
    match r.deleteMachinePool cluster.id machinePool.id with
    | some err =>
      { trace := [Event.errorf
          ("Failed to delete machine pool '" ++ machinePool.id ++ "' on cluster '" ++
            clusterKey ++ "': " ++ err)],
        outcome := Outcome.exited 1 }
    | none =>
      { trace := [Event.infof (msgSuccess machinePoolID clusterKey)],
        outcome := Outcome.returned }
  else
    { trace := [], outcome := Outcome.returned }

/-- The part of `run` that follows the two validation branches: the cluster
lookup, the machine pool lookup and the delete step. -/
def lookupStep (r : Runtime) (clusterKey machinePoolID : String) : Result :=
  emit [Event.debugf ("Loading cluster '" ++ clusterKey ++ "'"),
    Event.getCluster clusterKey] <|
  match r.getCluster clusterKey with
  | Except.error err =>
    { trace := [Event.errorf ("Failed to get cluster '" ++ clusterKey ++ "': " ++ err)],
      outcome := Outcome.exited 1 }
  | Except.ok cluster =>
    emit [Event.debugf ("Loading machine pools for cluster '" ++ clusterKey ++ "'"),
      Event.getMachinePools cluster.id] <|
    match r.getMachinePools cluster.id with
    | Except.error err =>
      { trace := [Event.errorf
          ("Failed to get machine pools for cluster '" ++ clusterKey ++ "': " ++ err)],
        outcome := Outcome.exited 1 }
    | Except.ok machinePools =>
      match findMachinePool machinePools machinePoolID with
      | none =>
        { trace := [Event.errorf
            ("Failed to get machine pool '" ++ machinePoolID ++ "' for cluster '" ++
              clusterKey ++ "'")],
          outcome := Outcome.exited 1 }
      | some machinePool => deleteStep r clusterKey cluster machinePoolID machinePool

/-- The handler of `rosa delete machinepool`.  `argv[0]` on an empty argument
list is an index out of range. -/
def run (r : Runtime) (argv : List String) : Result :=
  match argv with
  | [] => { trace := [], outcome := Outcome.panicked }
  | machinePoolID :: _ =>
    if machinePoolID ≠ "Default" ∧ ¬ MatchString machinePoolKeyRE machinePoolID = true then
      { trace := [Event.errorf msgInvalidIdentifier], outcome := Outcome.exited 1 }
    else
      let clusterKey := r.clusterKey
      if machinePoolID = "Default" then
        { trace := [Event.errorf (msgCannotDelete machinePoolID clusterKey)],
          outcome := Outcome.exited 1 }
      else
        lookupStep r clusterKey machinePoolID

/-- The three remote calls of the handler. -/
def isRemoteCall : Event → Bool
  | Event.getCluster _ => true
  | Event.getMachinePools _ => true
  | Event.deleteMachinePool _ _ => true
  | _ => false

def isDeleteCall : Event → Bool
  | Event.deleteMachinePool _ _ => true
  | _ => false

def isErrorf : Event → Bool
  | Event.errorf _ => true
  | _ => false

/-! ## Sample data -/

/-- Two machine pools with distinct ids. -/
def demoPools : List MachinePool :=
  [{ id := "mp-1", instanceType := "m5.xlarge", replicas := 2 },
   { id := "mp-2", instanceType := "r5.xlarge", replicas := 3 }]

/-- Two machine pools that carry the same id. -/
def dupPools : List MachinePool :=
  [{ id := "mp-1", instanceType := "m5.xlarge", replicas := 2 },
   { id := "mp-1", instanceType := "r5.xlarge", replicas := 3 }]

/-- A runtime used to instantiate the theorems: cluster `mycluster` with the
machine pools `mp-1` and `mp-2`, every remote call succeeds, the operator
confirms. -/
def demoRuntime : Runtime :=
  { clusterKey := "mycluster"
    getCluster := fun _ => Except.ok { id := "c1", state := "ready" }
    getMachinePools := fun _ => Except.ok demoPools
    deleteMachinePool := fun _ _ => none
    getUsers := fun _ _ => Except.ok []
    confirm := fun _ => true }

/-- The same runtime with an operator who declines. -/
def decliningRuntime : Runtime :=
  { demoRuntime with confirm := fun _ => false }

/-- Whether a message starts with the letter `F`, as the errors reported after
validation do (they start with the word `Failed`). -/
def startsWithF (msg : String) : Bool :=
  msg.data.head? = some 'F'

end Rosa.Machinepool

namespace Rosa.User

/-! ## Go slices and maps, as far as `run` uses them -/

/-- A slice that starts at the first cell of its backing array: the array
cells and the length.  The fetched slice and every value later assigned to
`clusterAdmins` have this shape and share one backing array.  Only the cells
below the fetched length are kept: the loop neither reads nor writes a cell
beyond them, whatever the capacity of the fetched slice is. -/
structure Slice where
  arr : List Rosa.User
  len : Nat
deriving DecidableEq, Repr

/-- The elements of a slice. -/
def Slice.toList (s : Slice) : List Rosa.User :=
  s.arr.take s.len

/-- The statement `clusterAdmins = append(clusterAdmins[:i], clusterAdmins[i+1:]...)`.
`clusterAdmins[:i]` needs `i ≤ cap`, `clusterAdmins[i+1:]` needs `i+1 ≤ len`;
a violated bound is a runtime panic (`none`).  The appended elements fit the
capacity, so `append` writes them into the backing array from cell `i` on and
leaves the other cells as they are. -/
def removeAt (s : Slice) (i : Nat) : Option Slice :=
  if i ≤ s.arr.length then
    if i + 1 ≤ s.len then
      let tail := (s.arr.take s.len).drop (i + 1)
      some { arr := s.arr.take i ++ tail ++ s.arr.drop (i + tail.length),
             len := i + tail.length }
    else none
  else none

/-- The last `k` iterations of `for i, user := range clusterAdmins` over a
fetched slice of length `n`.  The range expression is evaluated once, so the
index runs over the original length and `user` is read from the backing array
at the time of the iteration. -/
def removeLoop (n : Nat) : Nat → Slice → Option Slice
  | 0, s => some s
  | k + 1, s =>
    match s.arr.get? (n - (k + 1)) with
    | none => none
    | some user =>
      if user.id = "cluster-admin" then
        match removeAt s (n - (k + 1)) with
        | none => none
        | some s' => removeLoop n k s'
      else removeLoop n k s

/-- The sentinel-removal loop of `run` on the fetched list; `none` is a
runtime panic. -/
def removeClusterAdmin (fetched : List Rosa.User) : Option (List Rosa.User) :=
  (removeLoop fetched.length fetched.length
    { arr := fetched, len := fetched.length }).map Slice.toList

/-- A `map[string][]string`, as its entries. -/
abbrev GroupMap := List (String × List String)

/-- The lookup `groups[k]` with its `ok` flag. -/
def mapGet : GroupMap → String → Option (List String)
  | [], _ => none
  | (k', v') :: m, k => if k' = k then some v' else mapGet m k

/-- The assignment `groups[k] = v`. -/
def mapSet : GroupMap → String → List String → GroupMap
  | [], k, v => [(k, v)]
  | (k', v') :: m, k, v => if k' = k then (k, v) :: m else (k', v') :: mapSet m k v

/-- The two loops of `run` that fill `groups`. -/
def mergeGroups (clusterAdmins dedicatedAdmins : List Rosa.User) : GroupMap :=
  let groups : GroupMap :=
    clusterAdmins.foldl (fun groups user => mapSet groups user.id ["cluster-admins"]) []
  dedicatedAdmins.foldl
    (fun groups user =>
      if (mapGet groups user.id).isSome then
        mapSet groups user.id ["cluster-admins", "dedicated-admins"]
      else
        mapSet groups user.id ["dedicated-admins"])
    groups

def tableHeader : String := "ID\t\tGROUPS\n"

def tableRow (u : String) (r : List String) : String :=
  u ++ "\t\t" ++ ", ".intercalate r ++ "\n"

/-- The loop that prints the rows. The iteration order of a Go map is not
specified; the entries are taken here in the order of their first
assignment. -/
def printRows : GroupMap → List Event
  | [] => []
  | (u, r) :: groups => Event.fprintf (tableRow u r) :: Event.flush :: printRows groups

/-- The handler of `rosa list users`. -/
def run (r : Runtime) : Result :=
  let clusterKey := r.clusterKey
  emit [Event.debugf ("Loading cluster '" ++ clusterKey ++ "'"),
    Event.getCluster clusterKey] <|
  match r.getCluster clusterKey with
  | Except.error err =>
    { trace := [Event.errorf ("Failed to get cluster '" ++ clusterKey ++ "': " ++ err)],
      outcome := Outcome.exited 1 }
  | Except.ok cluster =>
    if cluster.state ≠ ClusterStateReady then
      { trace := [Event.errorf ("Cluster '" ++ clusterKey ++ "' is not yet ready")],
        outcome := Outcome.exited 1 }
    else
      emit [Event.debugf ("Loading users for cluster '" ++ clusterKey ++ "'"),
        Event.getUsers cluster.id "cluster-admins"] <|
      match r.getUsers cluster.id "cluster-admins" with
      | Except.error err =>
        { trace := [Event.errorf
            ("Failed to get cluster-admins for cluster '" ++ clusterKey ++ "': " ++ err)],
          outcome := Outcome.exited 1 }
      | Except.ok fetched =>
        match removeClusterAdmin fetched with
        | none => { trace := [], outcome := Outcome.panicked }
        | some clusterAdmins =>
          emit [Event.getUsers cluster.id "dedicated-admins"] <|
          match r.getUsers cluster.id "dedicated-admins" with
          | Except.error err =>
            { trace := [Event.errorf
                ("Failed to get dedicated-admins for cluster '" ++ clusterKey ++ "': " ++ err)],
              outcome := Outcome.exited 1 }
          | Except.ok dedicatedAdmins =>
            if clusterAdmins.length = 0 ∧ dedicatedAdmins.length = 0 then
              { trace := [Event.warnf
                  ("There are no users configured for cluster '" ++ clusterKey ++ "'")],
                outcome := Outcome.exited 1 }
            else
              { trace := Event.fprintf tableHeader ::
                  printRows (mergeGroups clusterAdmins dedicatedAdmins),
                outcome := Outcome.returned }

/-- Writes to the table writer or to standard output. -/
def isTableOutput : Event → Bool
  | Event.fprintf _ => true
  | Event.flush => true
  | _ => false

/-- The number of rows handed to standard output: one flush per row. -/
def rowsPrinted (trace : List Event) : Nat :=
  trace.count Event.flush

/-! ## Sample data -/

def alice : Rosa.User := { id := "alice", href := "/users/alice" }

def bob : Rosa.User := { id := "bob", href := "/users/bob" }

def clusterAdmin : Rosa.User := { id := "cluster-admin", href := "/users/cluster-admin" }

/-- A second entry that carries the sentinel id. -/
def clusterAdmin2 : Rosa.User := { id := "cluster-admin", href := "/users/cluster-admin-2" }

/-- A cluster whose two groups are answered by the given lists. -/
def runtimeWith (clusterAdmins dedicatedAdmins : List Rosa.User) : Runtime :=
  { clusterKey := "mycluster"
    getCluster := fun _ => Except.ok { id := "c1", state := "ready" }
    getMachinePools := fun _ => Except.ok []
    deleteMachinePool := fun _ _ => none
    getUsers := fun _ group =>
      if group = "cluster-admins" then Except.ok clusterAdmins else Except.ok dedicatedAdmins
    confirm := fun _ => true }

end Rosa.User

/-! # Theorems -/

namespace Rosa

/-! ## What the pattern accepts -/

theorem charClass_matches (cs : List Char) (x : List Char) :
    x ∈ (charClass cs).matches' ↔ ∃ c ∈ cs, x = [c] := by
  induction cs with
  | nil =>
    simp only [charClass, List.not_mem_nil, false_and, exists_false, iff_false]
    intro h
    exact h
  | cons c cs ih =>
    simp only [charClass, RegularExpression.matches', List.mem_cons]
    rw [Language.mem_add, ih]
    constructor
    · rintro (h | ⟨d, hd, rfl⟩)
      · exact ⟨c, Or.inl rfl, h⟩
      · exact ⟨d, Or.inr hd, rfl⟩
    · rintro ⟨d, (rfl | hd), rfl⟩
      · exact Or.inl rfl
      · exact Or.inr ⟨d, hd, rfl⟩

theorem charClass_star_matches (cs : List Char) (x : List Char) :
    x ∈ (RegularExpression.star (charClass cs)).matches' ↔ ∀ c ∈ x, c ∈ cs := by
  simp only [RegularExpression.matches', Language.mem_kstar]
  constructor
  · rintro ⟨L, rfl, hL⟩ c hc
    obtain ⟨y, hy, hcy⟩ := List.mem_flatten.1 hc
    obtain ⟨d, hd, rfl⟩ := (charClass_matches cs y).1 (hL y hy)
    simp at hcy
    subst hcy
    exact hd
  · intro h
    refine ⟨x.map (fun c => [c]), ?_, ?_⟩
    · induction x with
      | nil => rfl
      | cons a x ih =>
        simp only [List.map_cons, List.flatten_cons, List.singleton_append]
        rw [← ih (fun c hc => h c (List.mem_cons_of_mem _ hc))]
    · intro y hy
      obtain ⟨c, hc, rfl⟩ := List.mem_map.1 hy
      exact (charClass_matches cs [c]).2 ⟨c, h c hc, rfl⟩

theorem keyShape_matches (A K N : List Char) (x : List Char) :
    x ∈ (RegularExpression.comp (charClass A)
        (optional (RegularExpression.comp (RegularExpression.star (charClass K))
          (charClass N)))).matches' ↔
      ∃ (c : Char) (rest : List Char), x = c :: rest ∧ c ∈ A ∧
        (rest = [] ∨ ∃ (mid : List Char) (last : Char), rest = mid ++ [last] ∧
          (∀ y ∈ mid, y ∈ K) ∧ last ∈ N) := by
  simp only [optional, RegularExpression.matches', Language.mem_mul, Language.mem_add]
  constructor
  · rintro ⟨a, ha, b, hb, hab⟩
    obtain ⟨c, hc, rfl⟩ := (charClass_matches _ a).1 ha
    refine ⟨c, b, by rw [← hab]; rfl, hc, ?_⟩
    rcases hb with hb | ⟨mid, hmid, l, hl, rfl⟩
    · left; exact hb
    · right
      obtain ⟨last, hlast, rfl⟩ := (charClass_matches _ l).1 hl
      exact ⟨mid, last, rfl, (charClass_star_matches _ mid).1 hmid, hlast⟩
  · rintro ⟨c, rest, hs, hc, hrest⟩
    refine ⟨[c], (charClass_matches _ _).2 ⟨c, hc, rfl⟩, rest, ?_, by rw [hs]; rfl⟩
    rcases hrest with rfl | ⟨mid, last, rfl, hmid, hlast⟩
    · left; rfl
    · right
      exact ⟨mid, (charClass_star_matches _ mid).2 hmid, [last],
        (charClass_matches _ _).2 ⟨last, hlast, rfl⟩, rfl⟩

end Rosa

namespace Rosa.Machinepool

/-- The strings accepted by `machinePoolKeyRE`: a lower-case letter, followed
by nothing or by any number of letters, digits and hyphens and then a letter
or a digit. -/
theorem machinePoolKeyRE_accepts (s : String) :
    MatchString machinePoolKeyRE s = true ↔
      ∃ (c : Char) (rest : List Char), s.toList = c :: rest ∧ c ∈ charRange 'a' 'z' ∧
        (rest = [] ∨ ∃ (mid : List Char) (last : Char), rest = mid ++ [last] ∧
          (∀ y ∈ mid, y ∈ '-' :: (charRange 'a' 'z' ++ charRange '0' '9')) ∧
          last ∈ charRange 'a' 'z' ++ charRange '0' '9') := by
  unfold MatchString
  rw [RegularExpression.rmatch_iff_matches']
  exact keyShape_matches _ _ _ _

theorem charRange_lower : charRange 'a' 'z' = "abcdefghijklmnopqrstuvwxyz".toList := by
  decide

theorem charRange_digit : charRange '0' '9' = "0123456789".toList := by
  decide

/-! ## Validation -/

theorem default_not_matched : MatchString machinePoolKeyRE "Default" = false := by
  decide

theorem msgCannotDelete_ne (machinePoolID clusterKey : String) :
    msgCannotDelete machinePoolID clusterKey ≠ msgInvalidIdentifier := by
  intro h
  have h2 := congrArg String.data h
  simp [msgCannotDelete, msgInvalidIdentifier, String.data_append] at h2

/-- C1: an id that does not match the pattern is rejected: the handler reports
exactly one error, exits with status 1, and makes no remote call. -/
theorem run_rejects_unmatched (r : Runtime) (machinePoolID : String)
    (h : MatchString machinePoolKeyRE machinePoolID = false) :
    (run r [machinePoolID]).outcome = Outcome.exited 1 ∧
    (run r [machinePoolID]).outcome.exitStatus = 1 ∧
    (∃ msg, (run r [machinePoolID]).trace = [Event.errorf msg]) ∧
    ∀ e ∈ (run r [machinePoolID]).trace, isRemoteCall e = false := by
  by_cases hd : machinePoolID = "Default"
  · subst hd
    simp [run, Outcome.exitStatus, isRemoteCall]
  · simp [run, h, hd, Outcome.exitStatus, isRemoteCall]

theorem run_rejects_unmatched_witness :
    MatchString machinePoolKeyRE "mp-" = false ∧
    (run demoRuntime ["mp-"]).outcome = Outcome.exited 1 :=
  ⟨by decide, (run_rejects_unmatched demoRuntime "mp-" (by decide)).1⟩

/-- C2: the reserved id `Default` is rejected on every cluster key with the
"cannot be deleted" message, exit status 1 and no lookup; that message differs
from the "Expected a valid identifier" message, which is the one reported for
every other id that validation rejects. -/
theorem run_rejects_default (r : Runtime) :
    run r ["Default"] =
      { trace := [Event.errorf (msgCannotDelete "Default" r.clusterKey)],
        outcome := Outcome.exited 1 } ∧
    (run r ["Default"]).outcome.exitStatus = 1 ∧
    (∀ e ∈ (run r ["Default"]).trace, isRemoteCall e = false) ∧
    msgCannotDelete "Default" r.clusterKey ≠ msgInvalidIdentifier ∧
    ∀ machinePoolID : String, machinePoolID ≠ "Default" →
      MatchString machinePoolKeyRE machinePoolID = false →
      run r [machinePoolID] =
        { trace := [Event.errorf msgInvalidIdentifier], outcome := Outcome.exited 1 } := by
  refine ⟨?_, ?_, ?_, msgCannotDelete_ne _ _, ?_⟩
  · simp [run]
  · simp [run, Outcome.exitStatus]
  · simp [run, isRemoteCall]
  · intro machinePoolID hd h
    simp [run, hd, h]

theorem run_rejects_default_witness :
    run demoRuntime ["Default"] =
      { trace := [Event.errorf "Machine pool 'Default' cannot be deleted from cluster 'mycluster'"],
        outcome := Outcome.exited 1 } ∧
    run demoRuntime ["Mp_1"] =
      { trace := [Event.errorf "Expected a valid identifier for the machine pool"],
        outcome := Outcome.exited 1 } :=
  ⟨(run_rejects_default demoRuntime).1,
   (run_rejects_default demoRuntime).2.2.2.2 "Mp_1" (by decide) (by decide)⟩

theorem deleteStep_errorf (r : Runtime) (clusterKey : String) (cluster : Cluster)
    (machinePoolID : String) (machinePool : MachinePool) (msg : String)
    (h : Event.errorf msg ∈ (deleteStep r clusterKey cluster machinePoolID machinePool).trace) :
    startsWithF msg = true := by
  unfold deleteStep at h
  cases hc : r.confirm (confirmPrompt machinePoolID clusterKey) <;>
    simp only [hc, emit] at h
  · simp at h
  · cases hdel : r.deleteMachinePool cluster.id machinePool.id <;> simp [hdel] at h
    subst h
    simp [startsWithF, String.data_append]

theorem lookupStep_errorf (r : Runtime) (clusterKey machinePoolID msg : String)
    (h : Event.errorf msg ∈ (lookupStep r clusterKey machinePoolID).trace) :
    startsWithF msg = true := by
  unfold lookupStep at h
  cases hc : r.getCluster clusterKey with
  | error err =>
    simp [hc, emit] at h
    subst h
    simp [startsWithF, String.data_append]
  | ok cluster =>
    cases hp : r.getMachinePools cluster.id with
    | error err =>
      simp [hc, hp, emit] at h
      subst h
      simp [startsWithF, String.data_append]
    | ok machinePools =>
      cases hf : findMachinePool machinePools machinePoolID with
      | none =>
        simp [hc, hp, hf, emit] at h
        subst h
        simp [startsWithF, String.data_append]
      | some machinePool =>
        simp [hc, hp, hf, emit] at h
        exact deleteStep_errorf _ _ _ _ _ _ h

/-- C3: an id that matches the pattern and is not `Default` passes validation:
the handler continues with the cluster lookup (its first remote call is
`GetCluster` on the cluster key) and neither validation message is reported. -/
theorem run_accepts_matched (r : Runtime) (machinePoolID : String)
    (hm : MatchString machinePoolKeyRE machinePoolID = true)
    (hd : machinePoolID ≠ "Default") :
    run r [machinePoolID] = lookupStep r r.clusterKey machinePoolID ∧
    (∃ rest, (run r [machinePoolID]).trace =
      Event.debugf ("Loading cluster '" ++ r.clusterKey ++ "'") ::
        Event.getCluster r.clusterKey :: rest) ∧
    Event.errorf msgInvalidIdentifier ∉ (run r [machinePoolID]).trace ∧
    Event.errorf (msgCannotDelete machinePoolID r.clusterKey) ∉
      (run r [machinePoolID]).trace := by
  have hrun : run r [machinePoolID] = lookupStep r r.clusterKey machinePoolID := by
    simp [run, hm, hd]
  refine ⟨hrun, ?_, ?_, ?_⟩
  · rw [hrun]
    unfold lookupStep
    simp [emit]
  · rw [hrun]
    intro h
    have := lookupStep_errorf _ _ _ _ h
    simp [startsWithF, msgInvalidIdentifier] at this
  · rw [hrun]
    intro h
    have := lookupStep_errorf _ _ _ _ h
    simp [startsWithF, msgCannotDelete, String.data_append] at this

theorem run_accepts_matched_witness :
    MatchString machinePoolKeyRE "mp-1" = true ∧ "mp-1" ≠ "Default" ∧
    run demoRuntime ["mp-1"] = lookupStep demoRuntime "mycluster" "mp-1" :=
  ⟨by decide, by decide, (run_accepts_matched demoRuntime "mp-1" (by decide) (by decide)).1⟩

/-! ## The machine pool lookup -/

theorem findMachinePool_snoc (l : List MachinePool) (a : MachinePool) (machinePoolID : String) :
    findMachinePool (l ++ [a]) machinePoolID =
      if a.id = machinePoolID then some a else findMachinePool l machinePoolID := by
  simp [findMachinePool, List.foldl_append]

theorem findMachinePool_nil (machinePoolID : String) :
    findMachinePool [] machinePoolID = none := rfl

theorem findMachinePool_eq_none (pools : List MachinePool) (machinePoolID : String) :
    findMachinePool pools machinePoolID = none ↔ ∀ item ∈ pools, item.id ≠ machinePoolID := by
  induction pools using List.reverseRecOn with
  | nil => simp [findMachinePool_nil]
  | append_singleton l a ih =>
    rw [findMachinePool_snoc]
    by_cases ha : a.id = machinePoolID
    · simp only [ha, if_true]
      constructor
      · intro h; cases h
      · intro h; exact absurd ha (h a (by simp))
    · simp only [ha, if_false, ih]
      constructor
      · intro h item hi
        rcases List.mem_append.1 hi with hi | hi
        · exact h item hi
        · simp at hi; subst hi; exact ha
      · intro h item hi
        exact h item (List.mem_append_left _ hi)

theorem findMachinePool_some (pools : List MachinePool) (machinePoolID : String)
    (item : MachinePool) (h : findMachinePool pools machinePoolID = some item) :
    item ∈ pools ∧ item.id = machinePoolID := by
  induction pools using List.reverseRecOn with
  | nil => simp [findMachinePool_nil] at h
  | append_singleton l a ih =>
    rw [findMachinePool_snoc] at h
    by_cases ha : a.id = machinePoolID
    · simp only [ha, if_true, Option.some.injEq] at h
      subst h
      exact ⟨by simp, ha⟩
    · simp only [ha, if_false] at h
      exact ⟨List.mem_append_left _ (ih h).1, (ih h).2⟩

/-- The scan selects the item at the largest index whose id is the requested
one. -/
theorem findMachinePool_last_index (pools : List MachinePool) (machinePoolID : String)
    (h : ∃ item ∈ pools, item.id = machinePoolID) :
    ∃ (i : Nat) (item : MachinePool), pools[i]? = some item ∧ item.id = machinePoolID ∧
      findMachinePool pools machinePoolID = some item ∧
      ∀ (j : Nat) (other : MachinePool), i < j → pools[j]? = some other →
        other.id ≠ machinePoolID := by
  induction pools using List.reverseRecOn with
  | nil => simp at h
  | append_singleton l a ih =>
    by_cases ha : a.id = machinePoolID
    · refine ⟨l.length, a, by simp, ha, by simp [findMachinePool_snoc, ha], ?_⟩
      intro j other hj hget
      have : (l ++ [a])[j]? = none := by
        apply List.getElem?_eq_none
        simp; omega
      rw [this] at hget
      cases hget
    · have h2 : ∃ item ∈ l, item.id = machinePoolID := by
        obtain ⟨item, hi, hid⟩ := h
        rcases List.mem_append.1 hi with hi | hi
        · exact ⟨item, hi, hid⟩
        · simp at hi; subst hi; exact absurd hid ha
      obtain ⟨i, item, hget, hid, hfind, hlast⟩ := ih h2
      have hi : i < l.length := by
        by_contra hlt
        rw [List.getElem?_eq_none (by omega)] at hget
        cases hget
      refine ⟨i, item, ?_, hid, by simp [findMachinePool_snoc, ha, hfind], ?_⟩
      · rw [List.getElem?_append_left hi]; exact hget
      · intro j other hj hgetj
        by_cases hjl : j < l.length
        · rw [List.getElem?_append_left hjl] at hgetj
          exact hlast j other hj hgetj
        · by_cases hje : j = l.length
          · subst hje
            simp at hgetj
            subst hgetj
            exact ha
          · rw [List.getElem?_eq_none (by simp; omega)] at hgetj
            cases hgetj

theorem findMachinePool_of_nodup (pools : List MachinePool) (machinePoolID : String)
    (hnd : (pools.map MachinePool.id).Nodup) (item : MachinePool) (hi : item ∈ pools)
    (hid : item.id = machinePoolID) :
    findMachinePool pools machinePoolID = some item := by
  cases hf : findMachinePool pools machinePoolID with
  | none =>
    exact absurd hid ((findMachinePool_eq_none pools machinePoolID).1 hf item hi)
  | some found =>
    obtain ⟨hmem, hfid⟩ := findMachinePool_some pools machinePoolID found hf
    have := List.inj_on_of_nodup_map hnd hmem hi (hfid.trans hid.symm)
    rw [this]

theorem run_lookup_failure (r : Runtime) (cluster : Cluster) (pools : List MachinePool)
    (machinePoolID : String)
    (hc : r.getCluster r.clusterKey = Except.ok cluster)
    (hp : r.getMachinePools cluster.id = Except.ok pools)
    (hf : findMachinePool pools machinePoolID = none) :
    (run r [machinePoolID]).outcome = Outcome.exited 1 ∧
    ∀ e ∈ (run r [machinePoolID]).trace, isDeleteCall e = false := by
  by_cases hd : machinePoolID = "Default"
  · subst hd
    simp [run, isDeleteCall]
  · cases hm : MatchString machinePoolKeyRE machinePoolID
    · simp [run, hd, hm, isDeleteCall]
    · simp [run, hd, hm, lookupStep, hc, hp, hf, emit, isDeleteCall]

theorem run_lookup_success (r : Runtime) (cluster : Cluster) (pools : List MachinePool)
    (machinePoolID : String) (item : MachinePool)
    (hm : MatchString machinePoolKeyRE machinePoolID = true)
    (hd : machinePoolID ≠ "Default")
    (hc : r.getCluster r.clusterKey = Except.ok cluster)
    (hp : r.getMachinePools cluster.id = Except.ok pools)
    (hf : findMachinePool pools machinePoolID = some item) :
    run r [machinePoolID] =
      emit [Event.debugf ("Loading cluster '" ++ r.clusterKey ++ "'"),
            Event.getCluster r.clusterKey,
            Event.debugf ("Loading machine pools for cluster '" ++ r.clusterKey ++ "'"),
            Event.getMachinePools cluster.id]
        (deleteStep r r.clusterKey cluster machinePoolID item) := by
  simp [run, hd, hm, lookupStep, hc, hp, hf, emit]

/-- C4: on a list of machine pools with pairwise distinct ids the scan yields
exactly the item carrying the requested id, when there is one; when there is
none the lookup fails, and a handler that fetched this list exits with status
1 without a `DeleteMachinePool` call. -/
theorem lookup_distinct_ids (pools : List MachinePool) (machinePoolID : String)
    (hnd : (pools.map MachinePool.id).Nodup) :
    (∀ item ∈ pools, item.id = machinePoolID →
      findMachinePool pools machinePoolID = some item) ∧
    ((∀ item ∈ pools, item.id ≠ machinePoolID) →
      findMachinePool pools machinePoolID = none ∧
      ∀ (r : Runtime) (cluster : Cluster),
        r.getCluster r.clusterKey = Except.ok cluster →
        r.getMachinePools cluster.id = Except.ok pools →
        (run r [machinePoolID]).outcome = Outcome.exited 1 ∧
        (run r [machinePoolID]).outcome.exitStatus = 1 ∧
        ∀ e ∈ (run r [machinePoolID]).trace, isDeleteCall e = false) := by
  refine ⟨fun item hi hid => findMachinePool_of_nodup pools machinePoolID hnd item hi hid, ?_⟩
  intro habs
  have hf := (findMachinePool_eq_none pools machinePoolID).2 habs
  refine ⟨hf, ?_⟩
  intro r cluster hc hp
  obtain ⟨h1, h2⟩ := run_lookup_failure r cluster pools machinePoolID hc hp hf
  exact ⟨h1, by rw [h1]; rfl, h2⟩

theorem lookup_distinct_ids_witness :
    (demoPools.map MachinePool.id).Nodup ∧
    findMachinePool demoPools "mp-2" =
      some { id := "mp-2", instanceType := "r5.xlarge", replicas := 3 } ∧
    (run demoRuntime ["mp-3"]).outcome = Outcome.exited 1 :=
  ⟨by decide,
   (lookup_distinct_ids demoPools "mp-2" (by decide)).1 _ (by decide) rfl,
   (((lookup_distinct_ids demoPools "mp-3" (by decide)).2 (by decide)).2
      demoRuntime { id := "c1", state := "ready" } rfl rfl).1⟩

/-! ## The confirmation gate -/

/-- C5: when validation and both lookups succeed, `DeleteMachinePool` is called
once if the operator confirms and not at all otherwise; a declined
confirmation reports no error and the handler returns (status 0); an accepted
one followed by a successful delete reports success and returns (status 0). -/
theorem confirmation_gate (r : Runtime) (cluster : Cluster) (pools : List MachinePool)
    (machinePoolID : String) (item : MachinePool)
    (hm : MatchString machinePoolKeyRE machinePoolID = true)
    (hd : machinePoolID ≠ "Default")
    (hc : r.getCluster r.clusterKey = Except.ok cluster)
    (hp : r.getMachinePools cluster.id = Except.ok pools)
    (hf : findMachinePool pools machinePoolID = some item) :
    ((run r [machinePoolID]).trace.countP isDeleteCall =
      if r.confirm (confirmPrompt machinePoolID r.clusterKey) = true then 1 else 0) ∧
    (r.confirm (confirmPrompt machinePoolID r.clusterKey) = true →
      (run r [machinePoolID]).trace.count (Event.deleteMachinePool cluster.id item.id) = 1) ∧
    (r.confirm (confirmPrompt machinePoolID r.clusterKey) = false →
      (run r [machinePoolID]).trace.countP isDeleteCall = 0 ∧
      (∀ e ∈ (run r [machinePoolID]).trace, isErrorf e = false) ∧
      (run r [machinePoolID]).outcome = Outcome.returned ∧
      (run r [machinePoolID]).outcome.exitStatus = 0) ∧
    (r.confirm (confirmPrompt machinePoolID r.clusterKey) = true →
      r.deleteMachinePool cluster.id item.id = none →
      Event.infof (msgSuccess machinePoolID r.clusterKey) ∈ (run r [machinePoolID]).trace ∧
      (∀ e ∈ (run r [machinePoolID]).trace, isErrorf e = false) ∧
      (run r [machinePoolID]).outcome = Outcome.returned ∧
      (run r [machinePoolID]).outcome.exitStatus = 0) := by
  rw [run_lookup_success r cluster pools machinePoolID item hm hd hc hp hf]
  unfold deleteStep
  cases hcf : r.confirm (confirmPrompt machinePoolID r.clusterKey)
  · simp [emit, isDeleteCall, isErrorf, Outcome.exitStatus]
  · cases hdel : r.deleteMachinePool cluster.id item.id <;>
      simp [emit, isDeleteCall, isErrorf, Outcome.exitStatus, List.count_cons]

theorem confirmation_gate_witness :
    (run demoRuntime ["mp-1"]).trace.countP isDeleteCall = 1 ∧
    (run decliningRuntime ["mp-1"]).trace.countP isDeleteCall = 0 ∧
    (run decliningRuntime ["mp-1"]).outcome = Outcome.returned ∧
    Event.infof "Successfully deleted machine pool 'mp-1' from cluster 'mycluster'" ∈
      (run demoRuntime ["mp-1"]).trace :=
  ⟨(confirmation_gate demoRuntime { id := "c1", state := "ready" } demoPools "mp-1"
      { id := "mp-1", instanceType := "m5.xlarge", replicas := 2 }
      (by decide) (by decide) rfl rfl rfl).1,
   ((confirmation_gate decliningRuntime { id := "c1", state := "ready" } demoPools "mp-1"
      { id := "mp-1", instanceType := "m5.xlarge", replicas := 2 }
      (by decide) (by decide) rfl rfl rfl).2.2.1 rfl).1,
   ((confirmation_gate decliningRuntime { id := "c1", state := "ready" } demoPools "mp-1"
      { id := "mp-1", instanceType := "m5.xlarge", replicas := 2 }
      (by decide) (by decide) rfl rfl rfl).2.2.1 rfl).2.2.1,
   ((confirmation_gate demoRuntime { id := "c1", state := "ready" } demoPools "mp-1"
      { id := "mp-1", instanceType := "m5.xlarge", replicas := 2 }
      (by decide) (by decide) rfl rfl rfl).2.2.2 rfl rfl).1⟩

/-! ## First or last match -/

/-- C9, as stated, fails: of two items with the requested id the scan selects
the second, not the one at the smallest index. -/
theorem first_match_refuted :
    dupPools[0]? = some { id := "mp-1", instanceType := "m5.xlarge", replicas := 2 } ∧
    findMachinePool dupPools "mp-1" =
      some { id := "mp-1", instanceType := "r5.xlarge", replicas := 3 } ∧
    findMachinePool dupPools "mp-1" ≠ dupPools.find? (fun item => item.id = "mp-1") := by
  decide

/-- C9, amended: the scan returns the last match. For every list of machine
pools and every requested id occurring in it, the selected item is the one at
the largest index whose id equals the requested id, and it is the item handed
to the delete step. -/
theorem lookup_last_match (pools : List MachinePool) (machinePoolID : String)
    (h : ∃ item ∈ pools, item.id = machinePoolID) :
    ∃ (i : Nat) (item : MachinePool), pools[i]? = some item ∧ item.id = machinePoolID ∧
      findMachinePool pools machinePoolID = some item ∧
      (∀ (j : Nat) (other : MachinePool), i < j → pools[j]? = some other →
        other.id ≠ machinePoolID) ∧
      ∀ (r : Runtime) (cluster : Cluster),
        MatchString machinePoolKeyRE machinePoolID = true → machinePoolID ≠ "Default" →
        r.getCluster r.clusterKey = Except.ok cluster →
        r.getMachinePools cluster.id = Except.ok pools →
        run r [machinePoolID] =
          emit [Event.debugf ("Loading cluster '" ++ r.clusterKey ++ "'"),
                Event.getCluster r.clusterKey,
                Event.debugf ("Loading machine pools for cluster '" ++ r.clusterKey ++ "'"),
                Event.getMachinePools cluster.id]
            (deleteStep r r.clusterKey cluster machinePoolID item) := by
  obtain ⟨i, item, hget, hid, hfind, hlast⟩ := findMachinePool_last_index pools machinePoolID h
  exact ⟨i, item, hget, hid, hfind, hlast, fun r cluster hm hd hc hp =>
    run_lookup_success r cluster pools machinePoolID item hm hd hc hp hfind⟩

theorem lookup_last_match_witness :
    ∃ (i : Nat) (item : MachinePool), dupPools[i]? = some item ∧ item.id = "mp-1" ∧
      findMachinePool dupPools "mp-1" = some item ∧
      (∀ (j : Nat) (other : MachinePool), i < j → dupPools[j]? = some other →
        other.id ≠ "mp-1") :=
  let ⟨i, item, h1, h2, h3, h4, _⟩ :=
    lookup_last_match dupPools "mp-1"
      ⟨{ id := "mp-1", instanceType := "m5.xlarge", replicas := 2 }, by decide, rfl⟩
  ⟨i, item, h1, h2, h3, h4⟩

end Rosa.Machinepool

namespace Rosa.User

/-! ## The group merge -/

theorem mapGet_mapSet (g : GroupMap) (k : String) (v : List String) (k' : String) :
    mapGet (mapSet g k v) k' = if k = k' then some v else mapGet g k' := by
  induction g with
  | nil => simp [mapSet, mapGet]
  | cons p g ih =>
    obtain ⟨a, b⟩ := p
    by_cases hak : a = k
    · subst hak
      by_cases hak2 : a = k' <;> simp [mapSet, mapGet, hak2]
    · by_cases hak2 : a = k'
      · subst hak2
        have hka : ¬ k = a := fun h => hak h.symm
        simp [mapSet, mapGet, hak, hka]
      · simp [mapSet, mapGet, hak, hak2, ih]

theorem clusterLoop_get (clusterAdmins : List Rosa.User) (g : GroupMap) (id : String) :
    mapGet (clusterAdmins.foldl
        (fun groups user => mapSet groups user.id ["cluster-admins"]) g) id =
      if id ∈ clusterAdmins.map Rosa.User.id then some ["cluster-admins"] else mapGet g id := by
  induction clusterAdmins generalizing g with
  | nil => simp
  | cons u rest ih =>
    simp only [List.foldl_cons, ih, mapGet_mapSet, List.map_cons, List.mem_cons]
    by_cases h1 : id ∈ rest.map Rosa.User.id
    · simp [h1]
    · by_cases h2 : u.id = id
      · simp [h2]
      · have h3 : ¬ id = u.id := fun h => h2 h.symm
        simp [h1, h2, h3]

theorem dedicatedLoop_get (dedicatedAdmins : List Rosa.User) (g : GroupMap) (id : String) :
    mapGet (dedicatedAdmins.foldl
        (fun groups user =>
          if (mapGet groups user.id).isSome then
            mapSet groups user.id ["cluster-admins", "dedicated-admins"]
          else
            mapSet groups user.id ["dedicated-admins"]) g) id =
      if id ∈ dedicatedAdmins.map Rosa.User.id then
        (if (mapGet g id).isSome = true ∨ 2 ≤ (dedicatedAdmins.map Rosa.User.id).count id then
          some ["cluster-admins", "dedicated-admins"]
        else some ["dedicated-admins"])
      else mapGet g id := by
  induction dedicatedAdmins generalizing g with
  | nil => simp
  | cons u rest ih =>
    simp only [List.foldl_cons, ih, List.map_cons, List.mem_cons]
    by_cases h2 : u.id = id
    · subst h2
      by_cases h1 : u.id ∈ rest.map Rosa.User.id
      · cases hg : mapGet g u.id <;>
          simp [h1, hg, mapGet_mapSet, List.count_cons]
      · have hc0 : (rest.map Rosa.User.id).count u.id = 0 := List.count_eq_zero_of_not_mem h1
        cases hg : mapGet g u.id <;>
          simp [h1, hg, mapGet_mapSet, List.count_cons, hc0]
    · have h3 : ¬ id = u.id := fun h => h2 h.symm
      have hget : mapGet (if (mapGet g u.id).isSome then
            mapSet g u.id ["cluster-admins", "dedicated-admins"]
          else mapSet g u.id ["dedicated-admins"]) id = mapGet g id := by
        split <;> simp [mapGet_mapSet, h2]
      simp [hget, h3, h2, List.count_cons]

theorem mergeGroups_get (clusterAdmins dedicatedAdmins : List Rosa.User) (id : String) :
    mapGet (mergeGroups clusterAdmins dedicatedAdmins) id =
      if id ∈ dedicatedAdmins.map Rosa.User.id then
        (if id ∈ clusterAdmins.map Rosa.User.id ∨
            2 ≤ (dedicatedAdmins.map Rosa.User.id).count id then
          some ["cluster-admins", "dedicated-admins"]
        else some ["dedicated-admins"])
      else if id ∈ clusterAdmins.map Rosa.User.id then some ["cluster-admins"] else none := by
  unfold mergeGroups
  simp only [dedicatedLoop_get, clusterLoop_get]
  by_cases h : id ∈ clusterAdmins.map Rosa.User.id <;> simp [h, mapGet]

/-- C6 fails on the code: an id that occurs twice in the dedicated-admins
collection and not at all in the cluster-admins collection is mapped to both
labels, because the second loop takes the entry made for its first occurrence
for a cluster-admins entry; the handler prints the user as a cluster admin. -/
theorem merge_duplicate_refuted :
    "bob" ∉ ([] : List Rosa.User).map Rosa.User.id ∧
    "bob" ∈ [bob, bob].map Rosa.User.id ∧
    mapGet (mergeGroups [] [bob, bob]) "bob" = some ["cluster-admins", "dedicated-admins"] ∧
    mapGet (mergeGroups [] [bob, bob]) "bob" ≠ some ["dedicated-admins"] ∧
    Event.fprintf "bob\t\tcluster-admins, dedicated-admins\n" ∈
      (run (runtimeWith [] [bob, bob])).trace := by
  decide

/-- What the two loops do on arbitrary lists: the keys of the resulting map
are exactly the ids of the two collections; an id in both collections is mapped
to both labels, an id only in the cluster-admins collection to `cluster-admins`
alone, and an id that is only in the dedicated-admins collection, once, to
`dedicated-admins` alone. -/
theorem merge_groups_labels (clusterAdmins dedicatedAdmins : List Rosa.User) (id : String) :
    ((mapGet (mergeGroups clusterAdmins dedicatedAdmins) id).isSome = true ↔
      id ∈ clusterAdmins.map Rosa.User.id ∨ id ∈ dedicatedAdmins.map Rosa.User.id) ∧
    (id ∈ clusterAdmins.map Rosa.User.id → id ∈ dedicatedAdmins.map Rosa.User.id →
      mapGet (mergeGroups clusterAdmins dedicatedAdmins) id =
        some ["cluster-admins", "dedicated-admins"]) ∧
    (id ∈ clusterAdmins.map Rosa.User.id → id ∉ dedicatedAdmins.map Rosa.User.id →
      mapGet (mergeGroups clusterAdmins dedicatedAdmins) id = some ["cluster-admins"]) ∧
    (id ∉ clusterAdmins.map Rosa.User.id →
      (dedicatedAdmins.map Rosa.User.id).count id = 1 →
      mapGet (mergeGroups clusterAdmins dedicatedAdmins) id = some ["dedicated-admins"]) := by
  rw [mergeGroups_get]
  refine ⟨?_, ?_, ?_, ?_⟩
  · by_cases hd : id ∈ dedicatedAdmins.map Rosa.User.id
    · rw [if_pos hd]
      split <;> simp [hd]
    · rw [if_neg hd]
      by_cases hc : id ∈ clusterAdmins.map Rosa.User.id
      · rw [if_pos hc]; simp [hc]
      · rw [if_neg hc]
        simp only [Option.isSome_none, Bool.false_eq_true, false_iff]
        exact fun h => h.elim hc hd
  · intro hc hd
    rw [if_pos hd, if_pos (Or.inl hc)]
  · intro hc hd
    rw [if_neg hd, if_pos hc]
  · intro hc hcount
    have hd : id ∈ dedicatedAdmins.map Rosa.User.id := by
      rw [← List.count_pos_iff]; omega
    rw [if_pos hd, if_neg]
    intro h
    rcases h with h | h
    · exact hc h
    · omega

theorem merge_groups_labels_witness :
    removeClusterAdmin [clusterAdmin, alice] = some [alice] ∧
    mapGet (mergeGroups [alice] [alice, bob]) "alice" =
      some ["cluster-admins", "dedicated-admins"] ∧
    mapGet (mergeGroups [alice] [alice, bob]) "bob" = some ["dedicated-admins"] ∧
    mapGet (mergeGroups [alice] [alice, bob]) "cluster-admin" = none :=
  ⟨by decide,
   (merge_groups_labels [alice] [alice, bob] "alice").2.1 (by decide) (by decide),
   (merge_groups_labels [alice] [alice, bob] "bob").2.2.2 (by decide) (by decide),
   by decide⟩

/-! ## The sentinel removal -/

/-- C7 fails when the sentinel id occurs twice in a row: after a removal the
loop skips the element that moved into the freed cell, so a `cluster-admin`
entry stays in the list and gets a row of the table. -/
theorem sentinel_survives :
    removeClusterAdmin [clusterAdmin, clusterAdmin2, alice] = some [clusterAdmin2, alice] ∧
    clusterAdmin2.id = "cluster-admin" ∧
    Event.fprintf "cluster-admin\t\tcluster-admins\n" ∈
      (run (runtimeWith [clusterAdmin, clusterAdmin2, alice] [])).trace := by
  decide

/-- C10 fails: on a fetched list of two `cluster-admin` entries the second
iteration evaluates `clusterAdmins[2:]` on a slice of length 1, and the handler
panics. -/
theorem removal_loop_panics :
    removeAt { arr := [clusterAdmin2, clusterAdmin2], len := 1 } 1 = none ∧
    removeClusterAdmin [clusterAdmin, clusterAdmin2] = none ∧
    (run (runtimeWith [clusterAdmin, clusterAdmin2] [bob])).outcome = Outcome.panicked := by
  decide

/-! ### The removal loop on lists with at most one sentinel entry -/

theorem removeLoop_no_match (n k : Nat) (s : Slice) (hk : k ≤ n) (hlen : s.arr.length = n)
    (h : ∀ u ∈ s.arr.drop (n - k), u.id ≠ "cluster-admin") :
    removeLoop n k s = some s := by
  induction k with
  | zero => rfl
  | succ k ih =>
    have hi : n - (k + 1) < s.arr.length := by omega
    have hdrop := List.drop_eq_getElem_cons hi
    have hne : (s.arr[n - (k + 1)]).id ≠ "cluster-admin" :=
      h _ (by rw [hdrop]; exact List.mem_cons_self _ _)
    have hnext : ∀ u ∈ s.arr.drop (n - k), u.id ≠ "cluster-admin" := by
      intro u hu
      apply h u
      rw [hdrop]
      have : n - (k + 1) + 1 = n - k := by omega
      rw [this]
      exact List.mem_cons_of_mem _ hu
    simp only [removeLoop, List.get?_eq_getElem?, List.getElem?_eq_getElem hi, hne, if_false]
    exact ih (by omega) hnext

theorem removeAt_sentinel (pre post : List Rosa.User) (s : Rosa.User) :
    removeAt { arr := pre ++ s :: post, len := (pre ++ s :: post).length } pre.length =
      some { arr := pre ++ post ++ (s :: post).drop post.length,
             len := pre.length + post.length } := by
  have h1 : pre.length ≤ (pre ++ s :: post).length := by simp
  have h2 : pre.length + 1 ≤ (pre ++ s :: post).length := by simp
  have htail : ((pre ++ s :: post).take (pre ++ s :: post).length).drop (pre.length + 1) = post := by
    rw [List.take_length]
    have : pre.length + 1 = (pre ++ [s]).length := by simp
    rw [this, show pre ++ s :: post = (pre ++ [s]) ++ post by simp, List.drop_left]
  simp only [removeAt, h1, h2, if_true, htail]
  simp [List.take_left, List.drop_append]

theorem removeLoop_single (pre post : List Rosa.User) (s : Rosa.User)
    (hs : s.id = "cluster-admin")
    (hpre : ∀ u ∈ pre, u.id ≠ "cluster-admin")
    (hpost : ∀ u ∈ post, u.id ≠ "cluster-admin")
    (d : Nat) (hd : d ≤ pre.length) :
    removeLoop (pre ++ s :: post).length (post.length + 1 + d)
        { arr := pre ++ s :: post, len := (pre ++ s :: post).length } =
      some { arr := pre ++ post ++ (s :: post).drop post.length,
             len := pre.length + post.length } := by
  induction d with
  | zero =>
    have hi : (pre ++ s :: post).length - (post.length + 1) = pre.length := by
      simp
    have hget : (pre ++ s :: post)[pre.length]? = some s := by
      rw [List.getElem?_append_right (le_refl _)]
      simp
    simp only [Nat.add_zero, removeLoop, hi, List.get?_eq_getElem?, hget, hs, if_true,
      removeAt_sentinel]
    apply removeLoop_no_match
    · simp; omega
    · simp
    · intro u hu
      have hn : (pre ++ s :: post).length - post.length = pre.length + 1 := by
        simp; omega
      rw [hn] at hu
      cases post with
      | nil => simp at hu
      | cons p ps =>
        have hu2 : u ∈ ps ∨ u ∈ (p :: ps).drop ps.length := by
          simpa [List.drop_append, List.append_assoc] using hu
        rcases hu2 with hu2 | hu2
        · exact hpost u (List.mem_cons_of_mem _ hu2)
        · exact hpost u (List.mem_of_mem_drop hu2)
  | succ d ih =>
    have hlt : pre.length - (d + 1) < pre.length := by omega
    have hi : (pre ++ s :: post).length - (post.length + 1 + d + 1) = pre.length - (d + 1) := by
      simp; omega
    have hget : (pre ++ s :: post)[pre.length - (d + 1)]? = some (pre[pre.length - (d + 1)]) := by
      rw [List.getElem?_append_left hlt, List.getElem?_eq_getElem hlt]
    have hne : (pre[pre.length - (d + 1)]).id ≠ "cluster-admin" :=
      hpre _ (List.getElem_mem _)
    have hk : post.length + 1 + (d + 1) = (post.length + 1 + d) + 1 := by omega
    rw [hk]
    simp only [removeLoop, hi, List.get?_eq_getElem?, hget, hne, if_false]
    exact ih (by omega)

/-- When the sentinel id occurs exactly once in the fetched list, the loop
ends normally and removes that entry and nothing else. -/
theorem removeClusterAdmin_single (pre post : List Rosa.User) (s : Rosa.User)
    (hs : s.id = "cluster-admin")
    (hpre : ∀ u ∈ pre, u.id ≠ "cluster-admin")
    (hpost : ∀ u ∈ post, u.id ≠ "cluster-admin") :
    removeClusterAdmin (pre ++ s :: post) = some (pre ++ post) := by
  have hn : (pre ++ s :: post).length = post.length + 1 + pre.length := by
    simp; omega
  unfold removeClusterAdmin
  conv => lhs; arg 2; arg 2; rw [hn]
  rw [removeLoop_single pre post s hs hpre hpost pre.length (le_refl _)]
  simp [Slice.toList, List.take_append_eq_append_take, List.take_left]

/-- When the sentinel id does not occur in the fetched list, the loop ends
normally and leaves the list as it is. -/
theorem removeClusterAdmin_absent (fetched : List Rosa.User)
    (h : ∀ u ∈ fetched, u.id ≠ "cluster-admin") :
    removeClusterAdmin fetched = some fetched := by
  unfold removeClusterAdmin
  rw [removeLoop_no_match fetched.length fetched.length _ (le_refl _) rfl
    (fun u hu => h u (List.mem_of_mem_drop hu))]
  simp [Slice.toList]

/-! ## The empty table -/

theorem mergeGroups_ne_nil (clusterAdmins dedicatedAdmins : List Rosa.User)
    (h : ¬ (clusterAdmins.length = 0 ∧ dedicatedAdmins.length = 0)) :
    mergeGroups clusterAdmins dedicatedAdmins ≠ [] := by
  intro hnil
  have key : ∀ id, (mapGet (mergeGroups clusterAdmins dedicatedAdmins) id).isSome = true ↔
      id ∈ clusterAdmins.map Rosa.User.id ∨ id ∈ dedicatedAdmins.map Rosa.User.id := by
    intro id
    rw [mergeGroups_get]
    by_cases hd : id ∈ dedicatedAdmins.map Rosa.User.id
    · rw [if_pos hd]; split <;> simp [hd]
    · rw [if_neg hd]
      by_cases hc : id ∈ clusterAdmins.map Rosa.User.id
      · rw [if_pos hc]; simp [hc]
      · rw [if_neg hc]; simp [hc, hd]
  rw [hnil] at key
  cases clusterAdmins with
  | cons u rest => have := (key u.id).2 (Or.inl (by simp)); simp [mapGet] at this
  | nil =>
    cases dedicatedAdmins with
    | cons u rest => have := (key u.id).2 (Or.inr (by simp)); simp [mapGet] at this
    | nil => simp at h

theorem printRows_of_ne_nil (groups : GroupMap) (h : groups ≠ []) :
    ∃ u g rest, printRows groups = Event.fprintf (tableRow u g) :: Event.flush :: rest := by
  cases groups with
  | nil => exact absurd rfl h
  | cons p groups => exact ⟨p.1, p.2, printRows groups, rfl⟩

/-- Either the handler writes nothing of the table, or it writes the header
followed by at least one row. -/
theorem run_table_cases (r : Runtime) :
    (∀ e ∈ (run r).trace, isTableOutput e = false) ∨
    ∃ pre u g rest, (∀ e ∈ pre, isTableOutput e = false) ∧
      (run r).trace =
        pre ++ Event.fprintf tableHeader :: Event.fprintf (tableRow u g) :: Event.flush :: rest := by
  cases hc : r.getCluster r.clusterKey with
  | error err => left; simp [run, hc, emit, isTableOutput]
  | ok cluster =>
    by_cases hs : cluster.state = ClusterStateReady
    · cases hu : r.getUsers cluster.id "cluster-admins" with
      | error err => left; simp [run, hc, hu, emit, hs, isTableOutput]
      | ok fetched =>
        cases hr : removeClusterAdmin fetched with
        | none => left; simp [run, hc, hu, hr, emit, hs, isTableOutput]
        | some clusterAdmins =>
          cases hd : r.getUsers cluster.id "dedicated-admins" with
          | error err => left; simp [run, hc, hu, hr, hd, emit, hs, isTableOutput]
          | ok dedicatedAdmins =>
            by_cases he : clusterAdmins.length = 0 ∧ dedicatedAdmins.length = 0
            · left
              simp only [run, hc, hu, hr, hd, emit, hs, he]
              simp [isTableOutput]
            · right
              obtain ⟨u, g, rest, hrows⟩ :=
                printRows_of_ne_nil _ (mergeGroups_ne_nil clusterAdmins dedicatedAdmins he)
              refine ⟨[Event.debugf ("Loading cluster '" ++ r.clusterKey ++ "'"),
                Event.getCluster r.clusterKey,
                Event.debugf ("Loading users for cluster '" ++ r.clusterKey ++ "'"),
                Event.getUsers cluster.id "cluster-admins",
                Event.getUsers cluster.id "dedicated-admins"], u, g, rest, ?_, ?_⟩
              · simp [isTableOutput]
              · simp only [run, hc, hu, hr, hd, emit, hs, he]
                simp [hrows]
    · left; simp [run, hc, emit, hs, isTableOutput]

/-- C8: when the cluster-admins collection (as it stands after the sentinel
removal, so also when it was fetched empty) and the dedicated-admins collection
are both empty, the handler reports a warning, exits with status 1 and writes
neither the header nor a row; and whenever the handler writes anything of the
table, the header is followed by at least one user row. -/
theorem empty_table_never_printed (r : Runtime) :
    (∀ (cluster : Cluster) (fetched : List Rosa.User),
      r.getCluster r.clusterKey = Except.ok cluster →
      cluster.state = ClusterStateReady →
      r.getUsers cluster.id "cluster-admins" = Except.ok fetched →
      removeClusterAdmin fetched = some [] →
      r.getUsers cluster.id "dedicated-admins" = Except.ok [] →
      (run r).outcome = Outcome.exited 1 ∧
      (run r).outcome.exitStatus = 1 ∧
      Event.warnf ("There are no users configured for cluster '" ++ r.clusterKey ++ "'") ∈
        (run r).trace ∧
      ∀ e ∈ (run r).trace, isTableOutput e = false) ∧
    ((∃ e ∈ (run r).trace, isTableOutput e = true) →
      1 ≤ rowsPrinted (run r).trace ∧
      ∃ pre u g rest, (∀ e ∈ pre, isTableOutput e = false) ∧
        (run r).trace =
          pre ++ Event.fprintf tableHeader ::
            Event.fprintf (tableRow u g) :: Event.flush :: rest) := by
  constructor
  · intro cluster fetched hc hs hu hr hd
    simp [run, hc, hs, hu, hr, hd, emit, Outcome.exitStatus, isTableOutput]
  · intro hex
    rcases run_table_cases r with hno | ⟨pre, u, g, rest, hpre, htrace⟩
    · obtain ⟨e, he, ht⟩ := hex
      rw [hno e he] at ht
      cases ht
    · refine ⟨?_, pre, u, g, rest, hpre, htrace⟩
      rw [htrace]
      simp only [rowsPrinted, List.count_append, List.count_cons_self, List.count_cons]
      omega

theorem empty_table_never_printed_witness :
    (run (runtimeWith [clusterAdmin] [])).outcome = Outcome.exited 1 ∧
    (∀ e ∈ (run (runtimeWith [clusterAdmin] [])).trace, isTableOutput e = false) ∧
    1 ≤ rowsPrinted (run (runtimeWith [clusterAdmin, alice] [alice, bob])).trace :=
  ⟨((empty_table_never_printed (runtimeWith [clusterAdmin] [])).1
      { id := "c1", state := "ready" } [clusterAdmin] rfl rfl rfl (by decide) rfl).1,
   ((empty_table_never_printed (runtimeWith [clusterAdmin] [])).1
      { id := "c1", state := "ready" } [clusterAdmin] rfl rfl rfl (by decide) rfl).2.2.2,
   ((empty_table_never_printed (runtimeWith [clusterAdmin, alice] [alice, bob])).2
      ⟨Event.flush, by decide, rfl⟩).1⟩

end Rosa.User
